import Mathlib

/-!
Verification of the burn-import `ExpandNode` code generator
(`crates/burn-import/src/burn/node/expand.rs`) against its design
specification: the typed node abstraction, the scope/ownership pass,
and the per-node code emission for the `Expand` operator.

Token streams produced by the Rust `quote!` macro are embedded as
strings; each emitted fragment is modelled by concatenating the same
pieces the source interpolates.
-/

namespace BurnExpand

/-- Element kind of a tensor or scalar value (`Float`, `Int`, `Bool`). -/
inductive ElementKind where
  | float
  | int
  | bool
deriving DecidableEq, Repr

/-- Embeds `TensorType`: a named tensor with a static rank and element kind. -/
structure TensorType where
  name : String
  rank : Nat
  kind : ElementKind
deriving DecidableEq, Repr

/-- Embeds `ShapeType`: a named fixed-size array of dimension sizes. -/
structure ShapeType where
  name : String
  rank : Nat
deriving DecidableEq, Repr

/-- Embeds `ScalarType`: a named scalar value. -/
structure ScalarType where
  name : String
  kind : ElementKind
deriving DecidableEq, Repr

/-- Embeds `OtherType`: the escape hatch for opaque values. -/
structure OtherType where
  name : String
deriving DecidableEq, Repr

/-- Embeds the Rust `Type` tagged union of burn-import (`Ty` because `Type`
is reserved in Lean). -/
inductive Ty where
  | tensor : TensorType → Ty
  | shape : ShapeType → Ty
  | scalar : ScalarType → Ty
  | other : OtherType → Ty
deriving DecidableEq, Repr

/-- Whether a `Ty` is the Tensor variant. -/
def Ty.isTensor : Ty → Bool
  | .tensor _ => true
  | _ => false

/-- Whether a `Ty` is the Shape variant. -/
def Ty.isShape : Ty → Bool
  | .shape _ => true
  | _ => false

/-- The name carried by a `Ty`. -/
def Ty.name : Ty → String
  | .tensor t => t.name
  | .shape s => s.name
  | .scalar s => s.name
  | .other o => o.name

/-- Embeds `ExpandShape`: the shape parameter of an Expand node, either a
compile-time constant list of dimension sizes or a reference to a runtime
value. -/
inductive ExpandShape where
  | static : List Int → ExpandShape
  | runtime : Ty → ExpandShape
deriving DecidableEq, Repr

/-- Embeds `ExpandNode`: input tensor, output tensor, shape parameter. -/
structure ExpandNode where
  input : TensorType
  output : TensorType
  shape : ExpandShape
deriving DecidableEq, Repr

/-- Embeds `TensorType::new_float`. -/
def TensorType.new_float (name : String) (rank : Nat) : TensorType :=
  ⟨name, rank, .float⟩

/-- Embeds `TensorType::new_int`. -/
def TensorType.new_int (name : String) (rank : Nat) : TensorType :=
  ⟨name, rank, .int⟩

/-- Embeds `ShapeType::new`. -/
def ShapeType.new (name : String) (rank : Nat) : ShapeType :=
  ⟨name, rank⟩

/-- Access descriptor returned by the scope pass: duplicate the value
(`borrow`, rendered as a `.clone()` call) or transfer ownership
(`consume`, rendered as the bare name). -/
inductive Access where
  | borrow
  | consume
deriving DecidableEq, Repr

/-- Remaining-read count of `name` in an association list of counters
(first binding wins, matching a map). -/
def readCount : List (String × Nat) → String → Nat
  | [], _ => 0
  | (k, v) :: rest, name => if k = name then v else readCount rest name

/-- Decrement the counter of `name` (first binding only). -/
def decReads : List (String × Nat) → String → List (String × Nat)
  | [], _ => []
  | (k, v) :: rest, name =>
      if k = name then (k, v - 1) :: rest else (k, v) :: decReads rest name

/-- Increment the counter of `name`, inserting it at count 1 if absent. -/
def bumpRead : List (String × Nat) → String → List (String × Nat)
  | [], name => [(name, 1)]
  | (k, v) :: rest, name =>
      if k = name then (k, v + 1) :: rest else (k, v) :: bumpRead rest name

/-- Modelled from the spec: `Scope` (the struct itself is outside the
excerpted sources; only its caller `ExpandNode::forward` is under `src/`).
It maps each value name to the number of remaining reads, built by a
single forward scan, and records the declared graph outputs so their
final read stays a borrow. -/
structure Scope where
  reads : List (String × Nat)
  outputs : List String
deriving DecidableEq, Repr

/-- Remaining-read count of a name in a scope. -/
def Scope.count (s : Scope) (name : String) : Nat :=
  readCount s.reads name

/-- Whether a name is a declared graph output. -/
def Scope.isOutput (s : Scope) (name : String) : Bool :=
  s.outputs.contains name

/-- Decrement the remaining-read counter of a name. -/
def Scope.dec (s : Scope) (name : String) : Scope :=
  ⟨decReads s.reads name, s.outputs⟩

/-- Modelled from the spec: `Scope::use` returns an access descriptor and
decrements the counter: `Borrow/Clone` while the read count remains
positive after this use, `Consume` on the final read, except that a
declared graph output is always borrowed. -/
def Scope.use (s : Scope) (name : String) : Access × Scope :=
  if s.count name > 1 then (.borrow, s.dec name)
  else if s.isOutput name then (.borrow, s.dec name)
  else (.consume, s.dec name)

/-- Modelled from the spec: `Scope::tensor_use_owned` renders the access to
a tensor at a node position: a borrow duplicates the value
(`name.clone()`), a consume moves it (bare `name`). -/
def Scope.tensor_use_owned (s : Scope) (tensor : TensorType)
    (_node_position : Nat) : String × Scope :=
  match s.use tensor.name with
  | (.borrow, s2) => (tensor.name ++ ".clone()", s2)
  | (.consume, s2) => (tensor.name, s2)

/-- Embeds `ToTokens` for `Vec<i64>`: the literal dimension list, e.g.
`[4, 4, 4, 4]`. -/
def staticShapeToTokens (dims : List Int) : String :=
  "[" ++ String.intercalate ", " (dims.map toString) ++ "]"

/-- Embeds `ToTokens` for `usize`: the suffixed literal, e.g. `4usize`. -/
def usizeToTokens (n : Nat) : String :=
  toString n ++ "usize"

/-- Embeds the `match &self.shape` arms of `ExpandNode::forward`: the token
stream passed as the argument of `.expand(...)`, or the generation-time
panic for an unsupported runtime type. -/
def ExpandNode.shapeTokens (self : ExpandNode) : Except String String :=
  match self.shape with
  | .static static_shape => .ok (staticShapeToTokens static_shape)
  | .runtime (.tensor shape_tensor) =>
      .ok ("TryInto::<[B::IntElem; " ++ usizeToTokens self.output.rank
        ++ "]>::try_into(" ++ shape_tensor.name
        ++ ".to_data().as_slice::<B::IntElem>().unwrap()).unwrap()")
  | .runtime (.shape shape) => .ok shape.name
  | _ => .error "Invalid shape source"

/-- Embeds `ExpandNode::forward`: asks the scope for the input tensor,
renders the shape argument, and emits the single statement
`let <output> = <input>.expand(<shape>);`. The Rust `panic!` on an
unsupported runtime type is embedded as `Except.error`. -/
def ExpandNode.forward (self : ExpandNode) (scope : Scope)
    (node_position : Nat) : Except String (String × Scope) :=
  let r := scope.tensor_use_owned self.input node_position
  match self.shapeTokens with
  | .ok shape =>
      .ok ("let " ++ self.output.name ++ " = " ++ r.1
        ++ ".expand(" ++ shape ++ ");", r.2)
  | .error e => .error e

/-- Embeds `ExpandNode::output_types`. -/
def ExpandNode.output_types (self : ExpandNode) : List Ty :=
  [Ty.tensor self.output]

/-- Embeds `ExpandNode::input_types`: the input tensor alone for a static
shape, the input tensor followed by the referenced runtime value's type
otherwise. -/
def ExpandNode.input_types (self : ExpandNode) : List Ty :=
  let input := Ty.tensor self.input
  match self.shape with
  | .static _ => [input]
  | .runtime rt_type => [input, rt_type]

/-- Modelled from the spec: `Scope::register` scans the ordered node list
once and counts, per name, how many node inputs read it. -/
def Scope.register (nodes : List ExpandNode) (outputs : List String) :
    Scope :=
  ⟨(nodes.flatMap fun n => n.input_types.map Ty.name).foldl bumpRead [],
   outputs⟩

/-- Modelled from the spec: the emission loop of `Graph::codegen` iterates
nodes in registration order, threading the scope, collecting fragments. -/
def codegenAux (nodes : List ExpandNode) (scope : Scope) (pos : Nat) :
    Except String (List String) :=
  match nodes with
  | [] => .ok []
  | n :: rest =>
      match n.forward scope pos with
      | .ok (frag, scope2) =>
          match codegenAux rest scope2 (pos + 1) with
          | .ok frags => .ok (frag :: frags)
          | .error e => .error e
      | .error e => .error e

/-- Modelled from the spec: `Graph::codegen` builds a Scope over the full
node list, then emits every node's fragment in registration order. -/
def codegen (nodes : List ExpandNode) (outputs : List String) :
    Except String (List String) :=
  codegenAux nodes (Scope.register nodes outputs) 0

/-- Repeated scope use of the same name: the access descriptors of `n`
successive reads, in node order. -/
def Scope.useSeq (s : Scope) (name : String) : Nat → List Access
  | 0 => []
  | n + 1 => (s.use name).1 :: (s.use name).2.useSeq name n

/-- Modelled from the spec: the generated length-checked conversion
`TryInto::<[B::IntElem; n]>::try_into(slice)` of the runtime-tensor
fragment succeeds exactly when the slice has `n` elements. -/
def tryIntoFixedArray (n : Nat) (xs : List Int) : Option (List Int) :=
  if xs.length = n then some xs else none

/-- Test fixture of `test_codegen_expand_static`: rank-4 float input and
output, static shape `[4, 4, 4, 4]`. -/
def expandNodeStatic : ExpandNode :=
  ⟨TensorType.new_float "tensor1" 4, TensorType.new_float "tensor2" 4,
   ExpandShape.static [4, 4, 4, 4]⟩

/-- Test fixture of `test_codegen_expand_shape`: runtime shape reference
`shape1` of rank 4. -/
def expandNodeShape : ExpandNode :=
  ⟨TensorType.new_float "tensor1" 4, TensorType.new_float "tensor2" 4,
   ExpandShape.runtime (.shape (ShapeType.new "shape1" 4))⟩

/-- Test fixture of `test_codegen_expand_tensor`: runtime shape reference
through the rank-4 int tensor `tensor3`. -/
def expandNodeTensor : ExpandNode :=
  ⟨TensorType.new_float "tensor1" 4, TensorType.new_float "tensor2" 4,
   ExpandShape.runtime (.tensor (TensorType.new_int "tensor3" 4))⟩

/-- Scope state of the single-node test graphs: the input tensor is read
once and `tensor2` is the declared graph output. -/
def scopeStatic : Scope :=
  ⟨[("tensor1", 1)], ["tensor2"]⟩

lemma readCount_decReads_self (l : List (String × Nat)) (name : String) :
    readCount (decReads l name) name = readCount l name - 1 := by
  induction l with
  | nil => simp [readCount, decReads]
  | cons p rest ih =>
      by_cases h : p.1 = name
      · simp [readCount, decReads, h]
      · simp [readCount, decReads, h, ih]

lemma readCount_decReads_ne (l : List (String × Nat)) (name m : String)
    (h : m ≠ name) :
    readCount (decReads l name) m = readCount l m := by
  induction l with
  | nil => simp [decReads]
  | cons p rest ih =>
      by_cases hp : p.1 = name
      · simp [readCount, decReads, hp, Ne.symm h]
      · by_cases hm : p.1 = m <;>
          simp [readCount, decReads, hp, hm, h, ih]

lemma Scope.count_dec_self (s : Scope) (name : String) :
    (s.dec name).count name = s.count name - 1 :=
  readCount_decReads_self s.reads name

lemma Scope.count_dec_ne (s : Scope) (name m : String) (h : m ≠ name) :
    (s.dec name).count m = s.count m :=
  readCount_decReads_ne s.reads name m h

lemma Scope.isOutput_dec (s : Scope) (name m : String) :
    (s.dec name).isOutput m = s.isOutput m := rfl

lemma Scope.use_snd (s : Scope) (name : String) :
    (s.use name).2 = s.dec name := by
  unfold Scope.use
  split
  · rfl
  · split <;> rfl

lemma Scope.tensor_use_owned_snd (s : Scope) (t : TensorType) (pos : Nat) :
    (s.tensor_use_owned t pos).2 = s.dec t.name := by
  unfold Scope.tensor_use_owned
  have h := s.use_snd t.name
  rcases hu : s.use t.name with ⟨a, s2⟩
  rw [hu] at h
  cases a <;> simpa using h

/-- Claim C1: for every ExpandNode, `input_types` returns exactly one Type
(the input tensor) in the Static case, and exactly two Types in the
Runtime case, the first being the input tensor's Type and the second the
referenced value's Type stored in the Runtime variant. -/
theorem C1_input_types_arity (node : ExpandNode) :
    (∀ dims, node.shape = .static dims →
        node.input_types = [Ty.tensor node.input]) ∧
    (∀ t, node.shape = .runtime t →
        node.input_types = [Ty.tensor node.input, t]) := by
  constructor
  · intro dims h
    simp [ExpandNode.input_types, h]
  · intro t h
    simp [ExpandNode.input_types, h]

theorem C1_input_types_arity_witness :
    expandNodeStatic.input_types
        = [Ty.tensor (TensorType.new_float "tensor1" 4)] ∧
    expandNodeShape.input_types
        = [Ty.tensor (TensorType.new_float "tensor1" 4),
           Ty.shape (ShapeType.new "shape1" 4)] :=
  ⟨(C1_input_types_arity expandNodeStatic).1 [4, 4, 4, 4] rfl,
   (C1_input_types_arity expandNodeShape).2
     (Ty.shape (ShapeType.new "shape1" 4)) rfl⟩

/-- Claim C6: for every ExpandNode, `output_types` returns exactly one
Type: the Tensor Type of the node's declared output, whichever shape
variant is active. -/
theorem C6_output_types_single (node : ExpandNode) :
    node.output_types = [Ty.tensor node.output]
      ∧ node.output_types.length = 1 :=
  ⟨rfl, rfl⟩

/-- Claim C2: `forward` fails at generation time if and only if the shape
parameter is the Runtime variant holding a Type that is neither a Tensor
Type nor a Shape Type; the Static variant and the Runtime Tensor/Shape
sub-cases never fail. -/
theorem C2_forward_fails_iff (node : ExpandNode) (scope : Scope)
    (pos : Nat) :
    (∃ e, node.forward scope pos = .error e) ↔
      ∃ t, node.shape = .runtime t
        ∧ t.isTensor = false ∧ t.isShape = false := by
  rcases node with ⟨input, output, shape⟩
  cases shape with
  | static dims =>
      simp [ExpandNode.forward, ExpandNode.shapeTokens]
  | runtime t =>
      cases t <;>
        simp [ExpandNode.forward, ExpandNode.shapeTokens,
          Ty.isTensor, Ty.isShape]

/-- Claim C3: with a Static shape parameter, `forward` emits exactly one
statement invoking `expand` on the input with the literal dimension
list: `let <output> = <input>.expand([d1, ..., dk]);`. -/
theorem C3_static_fragment (node : ExpandNode) (dims : List Int)
    (scope : Scope) (pos : Nat) (h : node.shape = .static dims) :
    node.forward scope pos =
      .ok ("let " ++ node.output.name ++ " = "
            ++ (scope.tensor_use_owned node.input pos).1
            ++ ".expand(" ++ staticShapeToTokens dims ++ ");",
           (scope.tensor_use_owned node.input pos).2) := by
  simp [ExpandNode.forward, ExpandNode.shapeTokens, h]

theorem C3_static_fragment_witness :
    expandNodeStatic.forward scopeStatic 0 =
      .ok ("let tensor2 = tensor1.expand([4, 4, 4, 4]);",
           Scope.mk [("tensor1", 0)] ["tensor2"]) := by
  rw [C3_static_fragment expandNodeStatic [4, 4, 4, 4] scopeStatic 0 rfl]
  rfl

/-- Claim C4: with a Runtime Shape-typed shape parameter, `forward` passes
the referenced value's name directly as the `expand` argument, with no
conversion wrapped around it. -/
theorem C4_runtime_shape_fragment (node : ExpandNode) (st : ShapeType)
    (scope : Scope) (pos : Nat)
    (h : node.shape = .runtime (.shape st)) :
    node.forward scope pos =
      .ok ("let " ++ node.output.name ++ " = "
            ++ (scope.tensor_use_owned node.input pos).1
            ++ ".expand(" ++ st.name ++ ");",
           (scope.tensor_use_owned node.input pos).2) := by
  simp [ExpandNode.forward, ExpandNode.shapeTokens, h]

theorem C4_runtime_shape_fragment_witness :
    expandNodeShape.forward scopeStatic 0 =
      .ok ("let tensor2 = tensor1.expand(shape1);",
           Scope.mk [("tensor1", 0)] ["tensor2"]) := by
  rw [C4_runtime_shape_fragment expandNodeShape
    (ShapeType.new "shape1" 4) scopeStatic 0 rfl]
  rfl

/-- Claim C5: with a Runtime Tensor-typed shape parameter, `forward` wraps
the referenced tensor in an explicit host-side conversion before use as
the `expand` argument: a device-to-host transfer (`to_data`) followed by
a checked conversion (`try_into` / `TryInto`) into a fixed-size array of
index-typed (`B::IntElem`) elements. -/
theorem C5_runtime_tensor_fragment (node : ExpandNode) (t : TensorType)
    (scope : Scope) (pos : Nat)
    (h : node.shape = .runtime (.tensor t)) :
    node.forward scope pos =
      .ok ("let " ++ node.output.name ++ " = "
            ++ (scope.tensor_use_owned node.input pos).1
            ++ ".expand("
            ++ ("TryInto::<[B::IntElem; " ++ usizeToTokens node.output.rank
                ++ "]>::try_into(" ++ t.name
                ++ ".to_data().as_slice::<B::IntElem>().unwrap()).unwrap()")
            ++ ");",
           (scope.tensor_use_owned node.input pos).2) := by
  simp [ExpandNode.forward, ExpandNode.shapeTokens, h]

theorem C5_runtime_tensor_fragment_witness :
    expandNodeTensor.forward scopeStatic 0 =
      .ok ("let tensor2 = tensor1.expand(TryInto::<[B::IntElem; 4usize]>"
            ++ "::try_into(tensor3.to_data().as_slice::<B::IntElem>"
            ++ "().unwrap()).unwrap());",
           Scope.mk [("tensor1", 0)] ["tensor2"]) := by
  rw [C5_runtime_tensor_fragment expandNodeTensor
    (TensorType.new_int "tensor3" 4) scopeStatic 0 rfl]
  rfl

lemma Scope.useSeq_zero (s : Scope) (name : String) :
    s.useSeq name 0 = [] := rfl

lemma Scope.useSeq_succ (s : Scope) (name : String) (n : Nat) :
    s.useSeq name (n + 1)
      = (s.use name).1 :: (s.use name).2.useSeq name n := rfl

/-- First access descriptor returned by `Scope.use`, as an if-chain. -/
lemma Scope.use_fst (s : Scope) (name : String) :
    (s.use name).1 =
      if s.count name > 1 then Access.borrow
      else if s.isOutput name then Access.borrow
      else Access.consume := by
  unfold Scope.use
  split
  · rfl
  · split <;> rfl

/-- Claim C7: a value read `n` times yields `Borrow` for the first `n - 1`
uses and `Consume` for the `n`-th, in order; a value that is also a
declared graph output yields `Borrow` on its final read as well. -/
theorem C7_scope_clone_move_policy (s : Scope) (name : String) (n : Nat)
    (hn : s.count name = n) (hpos : 0 < n) :
    (s.isOutput name = false →
        s.useSeq name n
          = List.replicate (n - 1) Access.borrow ++ [Access.consume]) ∧
    (s.isOutput name = true →
        s.useSeq name n = List.replicate n Access.borrow) := by
  induction n generalizing s with
  | zero => exact absurd hpos (by omega)
  | succ k ih =>
      cases k with
      | zero =>
          have hgt : ¬ s.count name > 1 := by omega
          constructor
          · intro hout
            simp [Scope.useSeq_succ, Scope.useSeq_zero, Scope.use_fst,
              hgt, hout]
          · intro hout
            simp [Scope.useSeq_succ, Scope.useSeq_zero, Scope.use_fst,
              hgt, hout]
      | succ j =>
          have hgt : s.count name > 1 := by omega
          have hc2 : (s.dec name).count name = j + 1 := by
            rw [Scope.count_dec_self, hn]
            omega
          have ihs := ih (s.dec name) hc2 (Nat.succ_pos j)
          constructor
          · intro hout
            have htail := ihs.1 hout
            rw [Scope.useSeq_succ, Scope.use_snd, htail, Scope.use_fst,
              if_pos hgt]
            simp [List.replicate_succ]
          · intro hout
            have htail := ihs.2 hout
            rw [Scope.useSeq_succ, Scope.use_snd, htail, Scope.use_fst,
              if_pos hgt]
            simp [List.replicate_succ]

theorem C7_scope_clone_move_policy_witness :
    Scope.useSeq ⟨[("v", 3)], []⟩ "v" 3
        = [Access.borrow, Access.borrow, Access.consume] ∧
    Scope.useSeq ⟨[("w", 2)], ["w"]⟩ "w" 2
        = [Access.borrow, Access.borrow] :=
  ⟨(C7_scope_clone_move_policy ⟨[("v", 3)], []⟩ "v" 3 rfl
      (by decide)).1 rfl,
   (C7_scope_clone_move_policy ⟨[("w", 2)], ["w"]⟩ "w" 2 rfl
      (by decide)).2 rfl⟩

/-- Claim C8: code generation is deterministic: `forward` (and the graph
codegen loop over a fixed final registration order) produces identical
fragments from equal node configuration, scope state, and position. -/
theorem C8_codegen_deterministic :
    (∀ (n1 n2 : ExpandNode) (s1 s2 : Scope) (p1 p2 : Nat),
        n1 = n2 → s1 = s2 → p1 = p2 →
        n1.forward s1 p1 = n2.forward s2 p2) ∧
    (∀ (ns1 ns2 : List ExpandNode) (os1 os2 : List String),
        ns1 = ns2 → os1 = os2 → codegen ns1 os1 = codegen ns2 os2) := by
  constructor
  · intro n1 n2 s1 s2 p1 p2 hn hs hp
    rw [hn, hs, hp]
  · intro ns1 ns2 os1 os2 hn ho
    rw [hn, ho]

theorem C8_codegen_deterministic_witness :
    expandNodeStatic.forward scopeStatic 0
        = expandNodeStatic.forward scopeStatic 0 ∧
    codegen [expandNodeStatic] ["tensor2"]
        = codegen [expandNodeStatic] ["tensor2"] :=
  ⟨C8_codegen_deterministic.1 expandNodeStatic expandNodeStatic
      scopeStatic scopeStatic 0 0 rfl rfl rfl,
   C8_codegen_deterministic.2 [expandNodeStatic] [expandNodeStatic]
      ["tensor2"] ["tensor2"] rfl rfl⟩

/-- Claim C9: `forward` consults the scope only for the input tensor (one
`tensor_use_owned` call): the resulting scope is exactly the one left by
that single call, so every other name's remaining-read count — in
particular a Runtime shape operand's — is unchanged. -/
theorem C9_forward_scope_frame (node : ExpandNode) (scope : Scope)
    (pos : Nat) (frag : String) (scope2 : Scope)
    (h : node.forward scope pos = .ok (frag, scope2)) :
    scope2 = (scope.tensor_use_owned node.input pos).2 ∧
    ∀ name, name ≠ node.input.name →
        scope2.count name = scope.count name := by
  have h1 : scope2 = (scope.tensor_use_owned node.input pos).2 := by
    cases hst : node.shapeTokens with
    | ok sh =>
        simp [ExpandNode.forward, hst] at h
        exact h.2.symm
    | error e =>
        simp [ExpandNode.forward, hst] at h
  refine ⟨h1, fun name hne => ?_⟩
  rw [h1, Scope.tensor_use_owned_snd]
  exact Scope.count_dec_ne scope node.input.name name hne

theorem C9_forward_scope_frame_witness :
    Scope.mk [("tensor1", 0)] ["tensor2"]
        = (scopeStatic.tensor_use_owned
            (TensorType.new_float "tensor1" 4) 0).2 ∧
    (Scope.mk [("tensor1", 0)] ["tensor2"]).count "shape1"
        = scopeStatic.count "shape1" := by
  have h := C9_forward_scope_frame expandNodeShape scopeStatic 0
    "let tensor2 = tensor1.expand(shape1);"
    (Scope.mk [("tensor1", 0)] ["tensor2"]) rfl
  exact ⟨h.1, h.2 "shape1" (by decide)⟩

/-- Claim C10: in the Runtime Tensor sub-case, the fixed-size array length
in the emitted conversion is the output tensor's rank — the fragment is
invariant under changing the referenced shape tensor's own rank or kind —
and the generated length-checked conversion fails at the generated
program's run time exactly when the shape tensor's element count differs
from the output rank. -/
theorem C10_conversion_length_is_output_rank (node : ExpandNode)
    (t : TensorType) (scope : Scope) (pos : Nat)
    (h : node.shape = .runtime (.tensor t)) :
    node.shapeTokens =
      .ok ("TryInto::<[B::IntElem; " ++ usizeToTokens node.output.rank
        ++ "]>::try_into(" ++ t.name
        ++ ".to_data().as_slice::<B::IntElem>().unwrap()).unwrap()") ∧
    (∀ (rank2 : Nat) (kind2 : ElementKind),
        (ExpandNode.mk node.input node.output
            (.runtime (.tensor ⟨t.name, rank2, kind2⟩))).forward scope pos
          = node.forward scope pos) ∧
    (∀ xs : List Int,
        tryIntoFixedArray node.output.rank xs = none
          ↔ xs.length ≠ node.output.rank) := by
  refine ⟨?_, ?_, ?_⟩
  · simp [ExpandNode.shapeTokens, h]
  · intro rank2 kind2
    rcases node with ⟨input, output, shape⟩
    subst h
    simp [ExpandNode.forward, ExpandNode.shapeTokens]
  · intro xs
    unfold tryIntoFixedArray
    split <;> simp_all

theorem C10_conversion_length_witness :
    (ExpandNode.mk (TensorType.new_float "tensor1" 4)
        (TensorType.new_float "tensor2" 4)
        (.runtime (.tensor ⟨"tensor3", 1, ElementKind.int⟩))).forward
        scopeStatic 0
      = expandNodeTensor.forward scopeStatic 0 ∧
    (tryIntoFixedArray 4 [2, 3] = none
      ↔ ([2, 3] : List Int).length ≠ 4) := by
  have h := C10_conversion_length_is_output_rank expandNodeTensor
    (TensorType.new_int "tensor3" 4) scopeStatic 0 rfl
  exact ⟨h.2.1 1 ElementKind.int, h.2.2 [2, 3]⟩

end BurnExpand
